import Mathlib

/-!
Shallow embedding of `mappings.py` from the `discord-relay` repository.

The script consolidates membership rows from all SQLite files found under a
directory into one `central.db` store, then intersects the user sets of two
guilds.  We model:

* rows of the seven-column `channel_members` table (`Row`), and rows of the
  central store with the extra `sourceDb` provenance column (`CRow`);
* the filesystem walked by `os.walk` as a finite tree (`DirTree`);
* a SQLite read as an `Except`-valued function, so per-file failures
  (`sqlite3.Error`) are explicit data;
* the central store on disk as `Option (List CRow)` (`none` = file absent);
* `print` output and the two `input()` prompts as an `Event` trace.
-/

set_option autoImplicit false

namespace Mappings

/-- One row of a source file's `channel_members` table: the seven columns
selected by `populate_central_database`. -/
structure Row where
  userId : String
  displayName : String
  guildId : String
  guildName : String
  roles : String
  status : String
  platforms : String
deriving DecidableEq

/-- One row of the central store's `channel_members` table: the seven source
columns plus the `sourceDb` provenance column. -/
structure CRow where
  userId : String
  displayName : String
  guildId : String
  guildName : String
  roles : String
  status : String
  platforms : String
  sourceDb : String
deriving DecidableEq

/-- `(row[0], ..., row[6], db_path)`: tag a source row with the path of the
file it was read from (line 58 of `mappings.py`). -/
def tagRow (r : Row) (db_path : String) : CRow :=
  ⟨r.userId, r.displayName, r.guildId, r.guildName, r.roles, r.status, r.platforms, db_path⟩

/-- Python's `file.endswith(".db")`: the last three characters of the name
are `.db` (false for names shorter than three characters, as in Python). -/
def endsWithDb (s : String) : Bool :=
  s.data.reverse.take 3 == ['b', 'd', '.']

mutual
/-- A directory: its plain files (by name) and its subdirectories, as walked
top-down by `os.walk`. -/
inductive DirTree where
  | node (files : List String) (subdirs : SubdirList)

/-- The named subdirectories of a directory, in traversal order. -/
inductive SubdirList where
  | nil
  | cons (name : String) (tree : DirTree) (rest : SubdirList)
end

mutual
/-- `search_sqlite_files`: recursively collect `os.path.join(root, file)` for
every file whose name ends with `.db` (lines 5-12 of `mappings.py`). -/
def search_sqlite_files (root : String) : DirTree → List String
  | .node files subdirs =>
      (files.filter (fun file => endsWithDb file)).map (fun file => root ++ "/" ++ file)
        ++ searchSubdirs root subdirs

/-- Continuation of `search_sqlite_files` over the subdirectory list. -/
def searchSubdirs (root : String) : SubdirList → List String
  | .nil => []
  | .cons name tree rest =>
      search_sqlite_files (root ++ "/" ++ name) tree ++ searchSubdirs root rest
end

mutual
/-- All files reachable from a directory, as `(joined path, file name)`
pairs, in `os.walk` order. -/
def walkFiles (root : String) : DirTree → List (String × String)
  | .node files subdirs =>
      files.map (fun file => (root ++ "/" ++ file, file)) ++ walkFilesSubdirs root subdirs

/-- Continuation of `walkFiles` over the subdirectory list. -/
def walkFilesSubdirs (root : String) : SubdirList → List (String × String)
  | .nil => []
  | .cons name tree rest =>
      walkFiles (root ++ "/" ++ name) tree ++ walkFilesSubdirs root rest
end

/-- `create_central_database`: remove `central.db` if it exists, reconnect
(creating an empty store) and create the eight-column `channel_members`
table; returns the new on-disk state and the path (lines 14-41). -/
def create_central_database (prior : Option (List CRow)) : Option (List CRow) × String :=
  let central_db_path := "central.db"
  let afterRemove : Option (List CRow) := if prior.isSome then none else prior
  let afterConnect : Option (List CRow) := some (afterRemove.getD [])
  (afterConnect, central_db_path)

/-- The rows a `SELECT ... FROM channel_members` on `db_path` yields:
`read db_path` is `ok rows` on success and `error e` when `sqlite3` raises. -/
def okRows (read : String → Except String (List Row)) (db_path : String) : List Row :=
  match read db_path with
  | .ok rows => rows
  | .error _ => []

/-- The error lines printed for `db_path`: one message when reading raises
`sqlite3.Error`, none otherwise (lines 67-68). -/
def errMsgs (read : String → Except String (List Row)) (db_path : String) : List String :=
  match read db_path with
  | .ok _ => []
  | .error e => ["Error accessing database " ++ db_path ++ ": " ++ e]

/-- One iteration of the `for db_path in sqlite_files` loop of
`populate_central_database`: on success append the tagged rows, on
`sqlite3.Error` print the message and continue (lines 48-68). -/
def ingestStep (read : String → Except String (List Row))
    (acc : List CRow × List String) (db_path : String) : List CRow × List String :=
  match read db_path with
  | .ok rows => (acc.1 ++ rows.map (fun r => tagRow r db_path), acc.2)
  | .error e => (acc.1, acc.2 ++ ["Error accessing database " ++ db_path ++ ": " ++ e])

/-- `populate_central_database`: fold the ingestion loop over the discovered
files, starting from the current central rows; returns the final central
rows and the printed error lines (lines 43-71). -/
def populate_central_database (read : String → Except String (List Row))
    (central : List CRow) (sqlite_files : List String) : List CRow × List String :=
  sqlite_files.foldl (ingestStep read) (central, [])

/-- The lines printed by `display_guilds` on success: the header and one
line per distinct guild (lines 83-87). -/
def guildLines (guilds : List (String × String)) : List String :=
  "Available Guilds:" ::
    guilds.map (fun g => "  - Guild Name: " ++ g.2 ++ " (ID: " ++ g.1 ++ ")")

/-- `display_guilds`: `SELECT DISTINCT guildId, guildName` over the central
rows, printing each pair; on `sqlite3.Error` print the error and return the
empty list (lines 73-93).  The first component is the returned `guilds`
list, the second the printed lines. -/
def display_guilds (store : Except String (List CRow)) :
    List (String × String) × List String :=
  match store with
  | .ok rows =>
      let guilds := (rows.map (fun r => (r.guildId, r.guildName))).dedup
      (guilds, guildLines guilds)
  | .error e => ([], ["Error displaying guilds: " ++ e])

/-- `SELECT DISTINCT userId, displayName FROM channel_members WHERE
guildId = g`: the distinct `(userId, displayName)` pairs of the rows of
guild `g`, in the (implementation-defined) order the query returns them
(lines 101-117). -/
def selectUsers (rows : List CRow) (g : String) : List (String × String) :=
  ((rows.filter (fun r => r.guildId == g)).map (fun r => (r.userId, r.displayName))).dedup

/-- One assignment `dict[k] = v` on a Python dict represented as an
insertion-ordered association list: replace the value if the key is
present, append otherwise. -/
def dictInsert (m : List (String × String)) (k v : String) : List (String × String) :=
  if m.any (fun p => p.1 == k) then
    m.map (fun p => if p.1 == k then (k, v) else p)
  else m ++ [(k, v)]

/-- The dict comprehension `{row[0]: row[1] for row in cursor.fetchall()}`
(lines 114 and 117): fold the assignments left to right, so a key assigned
twice keeps the value of its last occurrence. -/
def dictOf (ps : List (String × String)) : List (String × String) :=
  ps.foldl (fun m p => dictInsert m p.1 p.2) []

/-- Python dict lookup `m[k]` (partial): the value of the entry whose key
is `k`. -/
def dlookup (m : List (String × String)) (k : String) : Option String :=
  (m.find? (fun p => p.1 == k)).map Prod.snd

/-- The lines printed by `find_users_in_selected_guilds` on success: the
per-user blocks when the intersection is non-empty, otherwise the
no-users-found message (lines 121-128). -/
def userLines (guild_a guild_b : String)
    (report : List (String × String × String)) : List String :=
  if report.isEmpty then
    ["No users found in both Guild " ++ guild_a ++ " and Guild " ++ guild_b ++ "."]
  else
    ("Users in both Guild " ++ guild_a ++ " and Guild " ++ guild_b ++ ":") ::
      report.flatMap (fun t =>
        ["  - User ID: " ++ t.1,
         "    Display Name in Guild " ++ guild_a ++ ": " ++ t.2.1,
         "    Display Name in Guild " ++ guild_b ++ ": " ++ t.2.2])

/-- `find_users_in_selected_guilds` (lines 95-132): build the
`userId -> displayName` dicts of the two guilds from the distinct query
results, intersect their key sets, and report each common user with both
display names; on `sqlite3.Error` print the error and report nothing.  The
first component lists the reported `(userId, name in A, name in B)`
triples, the second the printed lines. -/
def find_users_in_selected_guilds (store : Except String (List CRow))
    (guild_a guild_b : String) : List (String × String × String) × List String :=
  match store with
  | .ok rows =>
      let guild_a_users := dictOf (selectUsers rows guild_a)
      let guild_b_users := dictOf (selectUsers rows guild_b)
      let common := guild_a_users.filter (fun p => (dlookup guild_b_users p.1).isSome)
      let report := common.map (fun p => (p.1, p.2, (dlookup guild_b_users p.1).getD ""))
      (report, userLines guild_a guild_b report)
  | .error e => ([], ["Error finding users in selected guilds: " ++ e])

/-- An observable step of `main`: a printed line, or one of the two
interactive prompts. -/
inductive Event where
  | msg (s : String)
  | promptGuildA
  | promptGuildB
deriving DecidableEq

/-- How the central store answers the read-only queries after population:
`centralFail = some e` models `sqlite3.Error e` on reconnection, `none`
models normal access to the populated rows. -/
def mainStoreE (centralFail : Option String) (store : List CRow) :
    Except String (List CRow) :=
  match centralFail with
  | some e => Except.error e
  | none => Except.ok store

/-- `main` (lines 134-163): search for SQLite files under the working
directory, stop if none; recreate and populate the central store; display
the guilds, stop if none; otherwise prompt for the two guild ids and run
the finder.  Returns the event trace and the final on-disk central store. -/
def main (prior : Option (List CRow)) (root : String) (tree : DirTree)
    (read : String → Except String (List Row)) (centralFail : Option String)
    (inputA inputB : String) : List Event × Option (List CRow) :=
  let ev0 := [Event.msg "Searching for SQLite files..."]
  let sqlite_files := search_sqlite_files root tree
  if sqlite_files.isEmpty then
    (ev0 ++ [Event.msg "No SQLite files found."], prior)
  else
    let ev1 := ev0 ++ [Event.msg ("Found " ++ toString sqlite_files.length ++ " SQLite files.")]
    let created := create_central_database prior
    let pop := populate_central_database read (created.1.getD []) sqlite_files
    let storeE := mainStoreE centralFail pop.1
    let dg := display_guilds storeE
    let ev2 := ev1 ++ pop.2.map Event.msg ++ dg.2.map Event.msg
    let events :=
      if dg.1.isEmpty then
        ev2 ++ [Event.msg "No guilds available to compare."]
      else
        let guild_a := inputA.trim
        let guild_b := inputB.trim
        let fu := find_users_in_selected_guilds storeE guild_a guild_b
        ev2 ++ [Event.promptGuildA, Event.promptGuildB] ++ fu.2.map Event.msg
    (events, some pop.1)

/-! ### Helper lemmas about the ingestion fold -/

theorem populate_foldl (read : String → Except String (List Row)) :
    ∀ (files : List String) (central : List CRow) (errs : List String),
      files.foldl (ingestStep read) (central, errs) =
        (central ++ files.flatMap (fun p => (okRows read p).map (fun r => tagRow r p)),
         errs ++ files.flatMap (errMsgs read)) := by
  intro files
  induction files with
  | nil => intro central errs; simp
  | cons p files ih =>
      intro central errs
      rw [List.foldl_cons]
      cases h : read p with
      | ok rows =>
          have hstep : ingestStep read (central, errs) p =
              (central ++ rows.map (fun r => tagRow r p), errs) := by
            simp [ingestStep, h]
          rw [hstep, ih]
          simp [okRows, errMsgs, h]
      | error e =>
          have hstep : ingestStep read (central, errs) p =
              (central, errs ++ ["Error accessing database " ++ p ++ ": " ++ e]) := by
            simp [ingestStep, h]
          rw [hstep, ih]
          simp [okRows, errMsgs, h]

theorem populate_spec (read : String → Except String (List Row))
    (central : List CRow) (files : List String) :
    populate_central_database read central files =
      (central ++ files.flatMap (fun p => (okRows read p).map (fun r => tagRow r p)),
       files.flatMap (errMsgs read)) := by
  unfold populate_central_database
  rw [populate_foldl]
  simp

theorem mem_populate_of_ok {read : String → Except String (List Row)}
    {central : List CRow} {files : List String} {p : String} {rows : List Row} {r : Row}
    (hp : p ∈ files) (hread : read p = Except.ok rows) (hr : r ∈ rows) :
    tagRow r p ∈ (populate_central_database read central files).1 := by
  rw [populate_spec]
  refine List.mem_append.mpr (Or.inr ?_)
  refine List.mem_flatMap.mpr ⟨p, hp, ?_⟩
  refine List.mem_map.mpr ⟨r, ?_, rfl⟩
  simp [okRows, hread, hr]

theorem flatMap_errMsgs_nil {read : String → Except String (List Row)} {files : List String}
    (h : ∀ p ∈ files, ∃ rows, read p = Except.ok rows) :
    files.flatMap (errMsgs read) = [] := by
  induction files with
  | nil => rfl
  | cons p files ih =>
      rw [List.flatMap_cons]
      obtain ⟨rows, hr⟩ := h p (List.mem_cons_self p files)
      rw [ih (fun q hq => h q (List.mem_cons_of_mem p hq))]
      simp [errMsgs, hr]

/-! ### Helper lemmas about discovery -/

theorem filter_map_joined (root : String) (files : List String) :
    ((files.map (fun file => (root ++ "/" ++ file, file))).filter
        (fun q => endsWithDb q.2)).map Prod.fst
      = (files.filter (fun file => endsWithDb file)).map (fun file => root ++ "/" ++ file) := by
  induction files with
  | nil => rfl
  | cons f fs ih =>
      simp only [List.map_cons, List.filter_cons]
      cases h : endsWithDb f
      · simpa [h] using ih
      · simpa [h] using ih

mutual
theorem search_eq_walk (root : String) (t : DirTree) :
    search_sqlite_files root t =
      ((walkFiles root t).filter (fun q => endsWithDb q.2)).map Prod.fst := by
  cases t with
  | node files subdirs =>
      rw [search_sqlite_files, walkFiles, List.filter_append, List.map_append,
        filter_map_joined, searchSubdirs_eq_walk root subdirs]

theorem searchSubdirs_eq_walk (root : String) (l : SubdirList) :
    searchSubdirs root l =
      ((walkFilesSubdirs root l).filter (fun q => endsWithDb q.2)).map Prod.fst := by
  cases l with
  | nil => rfl
  | cons name tree rest =>
      rw [searchSubdirs, walkFilesSubdirs, List.filter_append, List.map_append,
        search_eq_walk (root ++ "/" ++ name) tree, searchSubdirs_eq_walk root rest]
end

/-! ### Helper lemmas about the initializer -/

@[simp] theorem create_central_database_fst (prior : Option (List CRow)) :
    (create_central_database prior).1 = some [] := by
  cases prior <;> rfl

/-! ### Helper lemmas about the dict collapse in the finder -/

theorem mapFst_replace (m : List (String × String)) (k v : String) :
    (m.map (fun p => if p.1 == k then (k, v) else p)).map Prod.fst = m.map Prod.fst := by
  induction m with
  | nil => rfl
  | cons q rest ih =>
      simp only [List.map_cons, ih, List.cons.injEq, and_true]
      cases h : q.1 == k
      · simp [h]
      · simp [h, (eq_of_beq h).symm]

theorem dictInsert_cons_of_ne {q : String × String} {rest : List (String × String)}
    {k : String} (v : String) (h : (q.1 == k) = false) :
    dictInsert (q :: rest) k v = q :: dictInsert rest k v := by
  have hne : q.1 ≠ k := by simpa using h
  unfold dictInsert
  simp only [List.any_cons, h, Bool.false_or]
  cases h2 : rest.any (fun p => p.1 == k) <;> simp [h, h2, hne]

theorem dictInsert_cons_of_eq {q : String × String} {rest : List (String × String)}
    {k : String} (v : String) (h : (q.1 == k) = true) :
    dictInsert (q :: rest) k v =
      (k, v) :: rest.map (fun p => if p.1 == k then (k, v) else p) := by
  have he : q.1 = k := eq_of_beq h
  unfold dictInsert
  simp [List.any_cons, h, he]

theorem dictInsert_keys_nodup {m : List (String × String)} (k v : String)
    (hm : (m.map Prod.fst).Nodup) : ((dictInsert m k v).map Prod.fst).Nodup := by
  unfold dictInsert
  cases h : m.any (fun p => p.1 == k)
  · have hk : k ∉ m.map Prod.fst := by
      intro hmem
      rcases List.mem_map.mp hmem with ⟨p, hp, hpk⟩
      exact (List.any_eq_false.mp h p hp) (by simp [hpk])
    simp only [Bool.false_eq_true, if_false, List.map_append]
    exact ((List.perm_append_singleton k (m.map Prod.fst)).symm).nodup
      (List.nodup_cons.mpr ⟨hk, hm⟩)
  · rw [if_pos rfl, mapFst_replace]
    exact hm

theorem dlookup_dictInsert_self (m : List (String × String)) (k v : String) :
    dlookup (dictInsert m k v) k = some v := by
  induction m with
  | nil => simp [dictInsert, dlookup]
  | cons q rest ih =>
      cases h : q.1 == k
      · rw [dictInsert_cons_of_ne v h]
        unfold dlookup at ih ⊢
        rw [List.find?_cons_of_neg _ (by simp [h])]
        exact ih
      · rw [dictInsert_cons_of_eq v h]
        simp [dlookup]

theorem find?_replace_ne (rest : List (String × String)) {k k' : String} (v : String)
    (h : k' ≠ k) :
    (rest.map (fun p => if p.1 == k then (k, v) else p)).find? (fun p => p.1 == k') =
      rest.find? (fun p => p.1 == k') := by
  induction rest with
  | nil => rfl
  | cons q rest ih =>
      cases hq : q.1 == k
      · simp only [List.map_cons, hq, Bool.false_eq_true, if_false]
        cases hq' : q.1 == k'
        · rw [List.find?_cons_of_neg _ (by simp [hq']),
            List.find?_cons_of_neg _ (by simp [hq'])]
          exact ih
        · rw [List.find?_cons_of_pos _ (by simp [hq']),
            List.find?_cons_of_pos _ (by simp [hq'])]
      · have hkk' : (k == k') = false := by
          simp only [beq_eq_false_iff_ne]
          exact fun e => h e.symm
        have hqk' : (q.1 == k') = false := by
          simp only [beq_eq_false_iff_ne]
          intro e
          exact h ((eq_of_beq hq) ▸ e).symm
        simp only [List.map_cons, hq, if_true]
        rw [List.find?_cons_of_neg _ (by simp [hkk']),
          List.find?_cons_of_neg _ (by simp [hqk'])]
        exact ih

theorem dlookup_dictInsert_ne (m : List (String × String)) {k k' : String} (v : String)
    (h : k' ≠ k) : dlookup (dictInsert m k v) k' = dlookup m k' := by
  induction m with
  | nil =>
      have : (k == k') = false := by
        simp only [beq_eq_false_iff_ne]
        exact fun e => h e.symm
      simp [dictInsert, dlookup, this]
  | cons q rest ih =>
      cases hq : q.1 == k
      · rw [dictInsert_cons_of_ne v hq]
        cases hq' : q.1 == k'
        · unfold dlookup at ih ⊢
          rw [List.find?_cons_of_neg _ (by simp [hq']),
            List.find?_cons_of_neg _ (by simp [hq'])]
          exact ih
        · unfold dlookup
          rw [List.find?_cons_of_pos _ (by simp [hq']),
            List.find?_cons_of_pos _ (by simp [hq'])]
      · rw [dictInsert_cons_of_eq v hq]
        have hkk' : (k == k') = false := by
          simp only [beq_eq_false_iff_ne]
          exact fun e => h e.symm
        have hqk' : (q.1 == k') = false := by
          simp only [beq_eq_false_iff_ne]
          intro e
          exact h ((eq_of_beq hq) ▸ e).symm
        unfold dlookup
        rw [List.find?_cons_of_neg _ (by simp [hkk']),
          List.find?_cons_of_neg _ (by simp [hqk']), find?_replace_ne _ v h]

theorem dictOf_append_singleton (ps : List (String × String)) (p : String × String) :
    dictOf (ps ++ [p]) = dictInsert (dictOf ps) p.1 p.2 := by
  unfold dictOf
  rw [List.foldl_append]
  rfl

theorem dictOf_keys_nodup (ps : List (String × String)) :
    ((dictOf ps).map Prod.fst).Nodup := by
  induction ps using List.reverseRecOn with
  | nil => simp [dictOf]
  | append_singleton ps p ih =>
      rw [dictOf_append_singleton]
      exact dictInsert_keys_nodup _ _ ih

theorem dlookup_dictOf (ps : List (String × String)) (k : String) :
    dlookup (dictOf ps) k = (ps.reverse.find? (fun p => p.1 == k)).map Prod.snd := by
  induction ps using List.reverseRecOn with
  | nil => rfl
  | append_singleton ps p ih =>
      rw [dictOf_append_singleton, List.reverse_append, List.reverse_singleton,
        List.singleton_append]
      by_cases hk : k = p.1
      · subst hk
        rw [dlookup_dictInsert_self, List.find?_cons_of_pos _ (by simp)]
        rfl
      · rw [dlookup_dictInsert_ne _ _ hk, ih,
          List.find?_cons_of_neg _ (by simp only [beq_iff_eq]; exact fun e => hk e.symm)]

theorem dlookup_some_mem {m : List (String × String)} {k v : String}
    (h : dlookup m k = some v) : (k, v) ∈ m := by
  unfold dlookup at h
  cases hf : m.find? (fun p => p.1 == k) with
  | none => rw [hf] at h; simp at h
  | some q =>
      rw [hf] at h
      obtain ⟨a, b⟩ := q
      have hq : a = k := by simpa using List.find?_some hf
      have hqm := List.mem_of_find?_eq_some hf
      have hb : b = v := by simpa using h
      rwa [← hq, ← hb]

theorem mem_dlookup_of_nodupKeys {m : List (String × String)}
    (hm : (m.map Prod.fst).Nodup) {k v : String} (h : (k, v) ∈ m) :
    dlookup m k = some v := by
  induction m with
  | nil => simp at h
  | cons q rest ih =>
      rw [List.map_cons, List.nodup_cons] at hm
      rcases List.mem_cons.mp h with heq | hmem
      · rw [← heq]
        simp [dlookup]
      · have hkne : (q.1 == k) = false := by
          simp only [beq_eq_false_iff_ne]
          intro e
          exact hm.1 (e ▸ List.mem_map.mpr ⟨(k, v), hmem, rfl⟩)
        unfold dlookup
        rw [List.find?_cons_of_neg _ (by simp [hkne])]
        exact ih hm.2 hmem

theorem dictOf_hasKey_iff (ps : List (String × String)) (k : String) :
    (dlookup (dictOf ps) k).isSome = true ↔ ∃ p ∈ ps, p.1 = k := by
  rw [dlookup_dictOf, Option.isSome_map', List.find?_isSome]
  constructor
  · rintro ⟨p, hp, hpk⟩
    exact ⟨p, List.mem_reverse.mp hp, eq_of_beq hpk⟩
  · rintro ⟨p, hp, hpk⟩
    exact ⟨p, List.mem_reverse.mpr hp, by simp [hpk]⟩

theorem mem_selectUsers {rows : List CRow} {g u d : String} :
    (u, d) ∈ selectUsers rows g ↔
      ∃ r ∈ rows, r.guildId = g ∧ r.userId = u ∧ r.displayName = d := by
  unfold selectUsers
  rw [List.mem_dedup, List.mem_map]
  constructor
  · rintro ⟨r, hr, heq⟩
    rw [List.mem_filter] at hr
    obtain ⟨h1, h2⟩ := Prod.mk.injEq .. ▸ heq
    exact ⟨r, hr.1, eq_of_beq hr.2, h1, h2⟩
  · rintro ⟨r, hr, hg, hu, hd⟩
    exact ⟨r, List.mem_filter.mpr ⟨hr, by simp [hg]⟩, by simp [hu, hd]⟩

/-! ### Claims about ingestion -/

/-- Claim C1: when no source file fails to read, the merge target after
ingestion is exactly the concatenation of all rows read from all source
files (sum of the row counts, no drops, no duplication, duplicates
preserved), every stored row is the tagged image of a row of its file with
`sourceDb` equal to that file's path, and no error is reported. -/
theorem claim_C1 (read : String → Except String (List Row)) (files : List String)
    (h : ∀ p ∈ files, ∃ rows, read p = Except.ok rows) :
    (populate_central_database read [] files).1 =
      files.flatMap (fun p => (okRows read p).map (fun r => tagRow r p)) ∧
    (populate_central_database read [] files).1.length =
      (files.map (fun p => (okRows read p).length)).sum ∧
    (∀ c ∈ (populate_central_database read [] files).1,
      ∃ p ∈ files, c.sourceDb = p ∧ ∃ r ∈ okRows read p, c = tagRow r p) ∧
    (populate_central_database read [] files).2 = [] := by
  refine ⟨?_, ?_, ?_, ?_⟩
  · rw [populate_spec]
    simp
  · rw [populate_spec]
    simp [List.length_flatMap, Function.comp_def]
  · intro c hc
    rw [populate_spec] at hc
    simp only [List.nil_append, List.mem_flatMap, List.mem_map] at hc
    obtain ⟨p, hp, r, hr, rfl⟩ := hc
    exact ⟨p, hp, rfl, r, hr, rfl⟩
  · rw [populate_spec]
    exact flatMap_errMsgs_nil h

theorem claim_C1_witness :
    (populate_central_database
        (fun _ => (Except.ok [⟨"u1", "Alice", "g1", "GuildOne", "", "online", "web"⟩] :
          Except String (List Row))) [] ["w/a.db"]).1 =
      [⟨"u1", "Alice", "g1", "GuildOne", "", "online", "web", "w/a.db"⟩] ∧
    (populate_central_database
        (fun _ => (Except.ok [⟨"u1", "Alice", "g1", "GuildOne", "", "online", "web"⟩] :
          Except String (List Row))) [] ["w/a.db"]).2 = [] := by
  have h := claim_C1
    (fun _ => (Except.ok [⟨"u1", "Alice", "g1", "GuildOne", "", "online", "web"⟩] :
      Except String (List Row))) ["w/a.db"] (fun p _ => ⟨_, rfl⟩)
  exact ⟨by rw [h.1]; rfl, h.2.2.2⟩

/-- Claim C2: for any mix of readable and failing source files, ingestion
appends exactly the rows of the readable files (a failing file contributes
nothing), reports one error line for every failing file, and ingests every
row of every readable file even when other files fail — a bad file never
aborts the merge. -/
theorem claim_C2 (read : String → Except String (List Row)) (central : List CRow)
    (files : List String) :
    (populate_central_database read central files).1 =
      central ++ files.flatMap (fun p => (okRows read p).map (fun r => tagRow r p)) ∧
    (populate_central_database read central files).2 = files.flatMap (errMsgs read) ∧
    (∀ p ∈ files, ∀ e, read p = Except.error e →
      ("Error accessing database " ++ p ++ ": " ++ e) ∈
        (populate_central_database read central files).2) ∧
    (∀ p ∈ files, ∀ rows, read p = Except.ok rows →
      ∀ r ∈ rows, tagRow r p ∈ (populate_central_database read central files).1) := by
  refine ⟨?_, ?_, ?_, ?_⟩
  · rw [populate_spec]
  · rw [populate_spec]
  · intro p hp e he
    rw [populate_spec]
    exact List.mem_flatMap.mpr ⟨p, hp, by simp [errMsgs, he]⟩
  · intro p hp rows hrows r hr
    exact mem_populate_of_ok hp hrows hr

theorem claim_C2_witness :
    (populate_central_database
        (fun p => if p = "w/a.db" then
            (Except.ok [⟨"u1", "Alice", "g1", "GuildOne", "", "online", "web"⟩] :
              Except String (List Row))
          else Except.error "no such table: channel_members")
        [] ["w/a.db", "w/bad.db"]).1 =
      [⟨"u1", "Alice", "g1", "GuildOne", "", "online", "web", "w/a.db"⟩] ∧
    "Error accessing database w/bad.db: no such table: channel_members" ∈
      (populate_central_database
        (fun p => if p = "w/a.db" then
            (Except.ok [⟨"u1", "Alice", "g1", "GuildOne", "", "online", "web"⟩] :
              Except String (List Row))
          else Except.error "no such table: channel_members")
        [] ["w/a.db", "w/bad.db"]).2 := by
  have h := claim_C2
    (fun p => if p = "w/a.db" then
        (Except.ok [⟨"u1", "Alice", "g1", "GuildOne", "", "online", "web"⟩] :
          Except String (List Row))
      else Except.error "no such table: channel_members")
    [] ["w/a.db", "w/bad.db"]
  refine ⟨by rw [h.1]; rfl, ?_⟩
  exact h.2.2.1 "w/bad.db" (by decide) "no such table: channel_members" rfl

/-! ### Claims about discovery -/

/-- Claim C6: discovery returns exactly the joined paths of the files found
anywhere under the root directory (recursively) whose name ends in `.db`,
and returns the empty list (rather than failing) when no such file exists;
the traversal is a total function, so empty subdirectories never raise. -/
theorem claim_C6 (root : String) (t : DirTree) :
    search_sqlite_files root t =
      ((walkFiles root t).filter (fun q => endsWithDb q.2)).map Prod.fst ∧
    ((walkFiles root t).filter (fun q => endsWithDb q.2) = [] →
      search_sqlite_files root t = []) := by
  refine ⟨search_eq_walk root t, fun h => ?_⟩
  rw [search_eq_walk root t, h]
  rfl

theorem claim_C6_witness :
    search_sqlite_files "w"
      (DirTree.node ["a.txt"]
        (SubdirList.cons "sub" (DirTree.node [] SubdirList.nil) SubdirList.nil)) = [] :=
  (claim_C6 "w"
    (DirTree.node ["a.txt"]
      (SubdirList.cons "sub" (DirTree.node [] SubdirList.nil) SubdirList.nil))).2 (by decide)

/-! ### Claim about the initializer -/

/-- Claim C7: the initializer is an idempotent wipe: from any prior state of
the store (absent, empty or populated) it produces the store `some []` with
zero rows at path `central.db`; initializing twice leaves it empty both
times, and populating then re-initializing also yields zero rows. -/
theorem claim_C7 (prior : Option (List CRow)) (read : String → Except String (List Row))
    (files : List String) :
    (create_central_database prior).1 = some [] ∧
    (create_central_database prior).2 = "central.db" ∧
    (create_central_database (create_central_database prior).1).1 = some [] ∧
    (create_central_database (some (populate_central_database read
        ((create_central_database prior).1.getD []) files).1)).1 = some [] := by
  refine ⟨create_central_database_fst prior, ?_, create_central_database_fst _,
    create_central_database_fst _⟩
  cases prior <;> rfl

/-! ### Reduction lemmas for the two query operations -/

theorem display_guilds_ok (rows : List CRow) :
    display_guilds (Except.ok rows) =
      ((rows.map (fun r => (r.guildId, r.guildName))).dedup,
       guildLines ((rows.map (fun r => (r.guildId, r.guildName))).dedup)) := rfl

theorem display_guilds_error (e : String) :
    display_guilds (Except.error e) = ([], ["Error displaying guilds: " ++ e]) := rfl

theorem find_users_ok (rows : List CRow) (guild_a guild_b : String) :
    (find_users_in_selected_guilds (Except.ok rows) guild_a guild_b).1 =
      ((dictOf (selectUsers rows guild_a)).filter
          (fun p => (dlookup (dictOf (selectUsers rows guild_b)) p.1).isSome)).map
        (fun p => (p.1, p.2, (dlookup (dictOf (selectUsers rows guild_b)) p.1).getD "")) := rfl

theorem find_users_error (e guild_a guild_b : String) :
    find_users_in_selected_guilds (Except.error e) guild_a guild_b =
      ([], ["Error finding users in selected guilds: " ++ e]) := rfl

theorem selectUsers_key_iff {rows : List CRow} {g u : String} :
    (∃ p ∈ selectUsers rows g, p.1 = u) ↔
      ∃ r ∈ rows, r.guildId = g ∧ r.userId = u := by
  constructor
  · rintro ⟨⟨a, b⟩, hp, rfl⟩
    obtain ⟨r, hr, h1, h2, h3⟩ := mem_selectUsers.mp hp
    exact ⟨r, hr, h1, h2⟩
  · rintro ⟨r, hr, h1, h2⟩
    exact ⟨(r.userId, r.displayName), mem_selectUsers.mpr ⟨r, hr, h1, rfl, rfl⟩, h2⟩

theorem dictOf_selectUsers_lookup_some {rows : List CRow} {g u v : String}
    (h : dlookup (dictOf (selectUsers rows g)) u = some v) :
    ∃ r ∈ rows, r.guildId = g ∧ r.userId = u := by
  apply selectUsers_key_iff.mp
  apply (dictOf_hasKey_iff _ _).mp
  rw [h]
  rfl

/-! ### Claims about the membership finder -/

/-- Claim C3: a triple `(u, nA, nB)` is reported by the finder exactly when
`u` occurs as a userId among the rows of `guild_a` and among the rows of
`guild_b` (intersection by userId of the two distinct-user sets), and `nA`,
`nB` are the display names the per-guild userId-to-displayName maps record
for `u`. -/
theorem claim_C3 (rows : List CRow) (guild_a guild_b u nA nB : String) :
    (u, nA, nB) ∈ (find_users_in_selected_guilds (Except.ok rows) guild_a guild_b).1 ↔
      ((∃ r ∈ rows, r.guildId = guild_a ∧ r.userId = u) ∧
       (∃ r ∈ rows, r.guildId = guild_b ∧ r.userId = u) ∧
       dlookup (dictOf (selectUsers rows guild_a)) u = some nA ∧
       dlookup (dictOf (selectUsers rows guild_b)) u = some nB) := by
  rw [find_users_ok]
  constructor
  · intro hmem
    rw [List.mem_map] at hmem
    obtain ⟨p, hp, heq⟩ := hmem
    rw [List.mem_filter] at hp
    obtain ⟨hpA, hpB⟩ := hp
    obtain ⟨a, b⟩ := p
    have ha : u = a := (congrArg (fun t => t.1) heq).symm
    have hb : nA = b := (congrArg (fun t => t.2.1) heq).symm
    have hc : (dlookup (dictOf (selectUsers rows guild_b)) a).getD "" = nB :=
      congrArg (fun t => t.2.2) heq
    subst ha
    subst hb
    have hA : dlookup (dictOf (selectUsers rows guild_a)) u = some nA :=
      mem_dlookup_of_nodupKeys (dictOf_keys_nodup _) hpA
    have hBsome : (dlookup (dictOf (selectUsers rows guild_b)) u).isSome = true := hpB
    obtain ⟨vB, hvB⟩ := Option.isSome_iff_exists.mp hBsome
    have hBnB : dlookup (dictOf (selectUsers rows guild_b)) u = some nB := by
      rw [hvB] at hc ⊢
      simp only [Option.getD_some] at hc
      rw [hc]
    exact ⟨dictOf_selectUsers_lookup_some hA, dictOf_selectUsers_lookup_some hBnB, hA, hBnB⟩
  · rintro ⟨-, -, hA, hB⟩
    rw [List.mem_map]
    refine ⟨(u, nA), List.mem_filter.mpr ⟨dlookup_some_mem hA, by rw [hB]; rfl⟩, ?_⟩
    simp [hB]

theorem claim_C3_witness :
    ("u2", "Bob", "Bobby") ∈
      (find_users_in_selected_guilds (Except.ok
        [⟨"u1", "Alice", "g1", "G1", "", "", "", "s1"⟩,
         ⟨"u2", "Bob", "g1", "G1", "", "", "", "s1"⟩,
         ⟨"u2", "Bobby", "g2", "G2", "", "", "", "s2"⟩,
         ⟨"u3", "Carol", "g2", "G2", "", "", "", "s2"⟩]) "g1" "g2").1 :=
  (claim_C3
    [⟨"u1", "Alice", "g1", "G1", "", "", "", "s1"⟩,
     ⟨"u2", "Bob", "g1", "G1", "", "", "", "s1"⟩,
     ⟨"u2", "Bobby", "g2", "G2", "", "", "", "s2"⟩,
     ⟨"u3", "Carol", "g2", "G2", "", "", "", "s2"⟩]
    "g1" "g2" "u2" "Bob" "Bobby").mpr
    ⟨by decide, by decide, by decide, by decide⟩

/-- Claim C4: the finder's userId-to-displayName map for a guild keeps
exactly one display name per userId (its key list has no duplicates), and
the value kept for a userId is the display name of the last pair with that
userId in the iteration order of the distinct-user query results
(last-write-wins in the key-based collapse). -/
theorem claim_C4 (rows : List CRow) (g k : String) :
    ((dictOf (selectUsers rows g)).map Prod.fst).Nodup ∧
    dlookup (dictOf (selectUsers rows g)) k =
      ((selectUsers rows g).reverse.find? (fun p => p.1 == k)).map Prod.snd :=
  ⟨dictOf_keys_nodup _, dlookup_dictOf _ _⟩

/-- Claim C5: the guild catalog is exactly the distinct `(guildId,
guildName)` pairs of the ingested rows: no two returned pairs are equal, a
pair is returned exactly when some row carries it (so one guildId under two
names yields two pairs), and permuting the stored rows permutes the catalog
(in particular its cardinality is invariant). -/
theorem claim_C5 (rows rows' : List CRow) (pr : String × String) :
    (display_guilds (Except.ok rows)).1.Nodup ∧
    (pr ∈ (display_guilds (Except.ok rows)).1 ↔
      ∃ r ∈ rows, r.guildId = pr.1 ∧ r.guildName = pr.2) ∧
    (rows.Perm rows' →
      (display_guilds (Except.ok rows)).1.Perm (display_guilds (Except.ok rows')).1) := by
  rw [display_guilds_ok, display_guilds_ok]
  refine ⟨List.nodup_dedup _, ?_, fun hperm => (hperm.map _).dedup⟩
  rw [List.mem_dedup, List.mem_map]
  constructor
  · rintro ⟨r, hr, heq⟩
    refine ⟨r, hr, ?_, ?_⟩
    · rw [← heq]
    · rw [← heq]
  · rintro ⟨r, hr, h1, h2⟩
    exact ⟨r, hr, Prod.ext_iff.mpr ⟨h1, h2⟩⟩

theorem claim_C5_witness :
    ((display_guilds (Except.ok
        [⟨"u1", "Alice", "g1", "G1", "", "", "", "s1"⟩,
         ⟨"u2", "Bob", "g2", "G2", "", "", "", "s2"⟩])).1.Perm
      (display_guilds (Except.ok
        [⟨"u2", "Bob", "g2", "G2", "", "", "", "s2"⟩,
         ⟨"u1", "Alice", "g1", "G1", "", "", "", "s1"⟩])).1) ∧
    ("g1", "G1") ∈ (display_guilds (Except.ok
        [⟨"u1", "Alice", "g1", "G1", "", "", "", "s1"⟩,
         ⟨"u2", "Bob", "g2", "G2", "", "", "", "s2"⟩])).1 := by
  have h := claim_C5
    [⟨"u1", "Alice", "g1", "G1", "", "", "", "s1"⟩,
     ⟨"u2", "Bob", "g2", "G2", "", "", "", "s2"⟩]
    [⟨"u2", "Bob", "g2", "G2", "", "", "", "s2"⟩,
     ⟨"u1", "Alice", "g1", "G1", "", "", "", "s1"⟩]
    ("g1", "G1")
  exact ⟨h.2.2 (by decide), h.2.1.mpr
    ⟨⟨"u1", "Alice", "g1", "G1", "", "", "", "s1"⟩, by decide, rfl, rfl⟩⟩

/-! ### Helper lemmas about the entry point -/

theorem main_of_empty (prior : Option (List CRow)) (root : String) (tree : DirTree)
    (read : String → Except String (List Row)) (centralFail : Option String)
    (inputA inputB : String) (h : search_sqlite_files root tree = []) :
    main prior root tree read centralFail inputA inputB =
      ([Event.msg "Searching for SQLite files...", Event.msg "No SQLite files found."],
       prior) := by
  simp [main, h]

theorem main_snd_of_nonempty (prior : Option (List CRow)) (root : String) (tree : DirTree)
    (read : String → Except String (List Row)) (centralFail : Option String)
    (inputA inputB : String) (h : search_sqlite_files root tree ≠ []) :
    (main prior root tree read centralFail inputA inputB).2 =
      some (populate_central_database read [] (search_sqlite_files root tree)).1 := by
  have hisE : (search_sqlite_files root tree).isEmpty = false := by
    simp [List.isEmpty_iff, h]
  simp [main, hisE]

/-! ### Claims about control flow and query-failure recovery -/

/-- Claim C8: a query failure in the catalog reporter or in the finder is
logged and yields an empty result instead of propagating: `display_guilds`
returns no guilds plus the error line, `find_users_in_selected_guilds`
reports no users plus the error line, and the entry point treats the empty
catalog as "nothing to compare" — it prints that message, shows the logged
error, and never prompts. -/
theorem claim_C8 (e guild_a guild_b : String) (prior : Option (List CRow)) (root : String)
    (tree : DirTree) (read : String → Except String (List Row)) (inputA inputB : String) :
    display_guilds (Except.error e) = ([], ["Error displaying guilds: " ++ e]) ∧
    find_users_in_selected_guilds (Except.error e) guild_a guild_b =
      ([], ["Error finding users in selected guilds: " ++ e]) ∧
    (search_sqlite_files root tree ≠ [] →
      Event.msg "No guilds available to compare." ∈
        (main prior root tree read (some e) inputA inputB).1 ∧
      Event.msg ("Error displaying guilds: " ++ e) ∈
        (main prior root tree read (some e) inputA inputB).1 ∧
      Event.promptGuildA ∉ (main prior root tree read (some e) inputA inputB).1 ∧
      Event.promptGuildB ∉ (main prior root tree read (some e) inputA inputB).1) := by
  refine ⟨display_guilds_error e, find_users_error e guild_a guild_b, fun hne => ?_⟩
  have hisE : (search_sqlite_files root tree).isEmpty = false := by
    simp [List.isEmpty_iff, hne]
  refine ⟨?_, ?_, ?_, ?_⟩ <;>
    simp [main, hisE, mainStoreE, display_guilds_error]

theorem claim_C8_witness :
    display_guilds (Except.error "disk I/O error") =
      ([], ["Error displaying guilds: disk I/O error"]) ∧
    Event.msg "No guilds available to compare." ∈
      (main none "w" (DirTree.node ["a.db"] SubdirList.nil)
        (fun _ => (Except.ok [⟨"u1", "Alice", "g1", "G1", "", "", ""⟩] :
          Except String (List Row)))
        (some "disk I/O error") "a" "b").1 ∧
    Event.promptGuildA ∉
      (main none "w" (DirTree.node ["a.db"] SubdirList.nil)
        (fun _ => (Except.ok [⟨"u1", "Alice", "g1", "G1", "", "", ""⟩] :
          Except String (List Row)))
        (some "disk I/O error") "a" "b").1 := by
  have h := claim_C8 "disk I/O error" "g1" "g2" none "w" (DirTree.node ["a.db"] SubdirList.nil)
    (fun _ => (Except.ok [⟨"u1", "Alice", "g1", "G1", "", "", ""⟩] :
      Except String (List Row))) "a" "b"
  have h3 := h.2.2 (by decide)
  exact ⟨h.1, h3.1, h3.2.2.1⟩

/-- Claim C9: when discovery finds no matching file the program prints the
search and not-found messages and stops, and when the guild catalog is
empty it prints the no-guilds message and stops; in both situations neither
of the two guild-id prompts is ever emitted. -/
theorem claim_C9 (prior : Option (List CRow)) (root : String) (tree : DirTree)
    (read : String → Except String (List Row)) (centralFail : Option String)
    (inputA inputB : String) :
    (search_sqlite_files root tree = [] →
      main prior root tree read centralFail inputA inputB =
        ([Event.msg "Searching for SQLite files...", Event.msg "No SQLite files found."],
         prior)) ∧
    ((display_guilds (mainStoreE centralFail
        (populate_central_database read [] (search_sqlite_files root tree)).1)).1 = [] →
      Event.promptGuildA ∉ (main prior root tree read centralFail inputA inputB).1 ∧
      Event.promptGuildB ∉ (main prior root tree read centralFail inputA inputB).1 ∧
      (search_sqlite_files root tree ≠ [] →
        Event.msg "No guilds available to compare." ∈
          (main prior root tree read centralFail inputA inputB).1)) := by
  constructor
  · intro h
    exact main_of_empty prior root tree read centralFail inputA inputB h
  · intro hg
    by_cases hfiles : search_sqlite_files root tree = []
    · rw [main_of_empty prior root tree read centralFail inputA inputB hfiles]
      refine ⟨by simp, by simp, fun hne => absurd hfiles hne⟩
    · have hisE : (search_sqlite_files root tree).isEmpty = false := by
        simp [List.isEmpty_iff, hfiles]
      refine ⟨?_, ?_, fun _ => ?_⟩ <;>
        simp [main, hisE, hg]

theorem claim_C9_witness :
    search_sqlite_files "w" (DirTree.node [] SubdirList.nil) = [] ∧
    main none "w" (DirTree.node [] SubdirList.nil)
        (fun _ => (Except.error "x" : Except String (List Row))) none "a" "b" =
      ([Event.msg "Searching for SQLite files...", Event.msg "No SQLite files found."],
       none) ∧
    Event.promptGuildA ∉
      (main none "w" (DirTree.node [] SubdirList.nil)
        (fun _ => (Except.error "x" : Except String (List Row))) none "a" "b").1 := by
  have h := claim_C9 none "w" (DirTree.node [] SubdirList.nil)
    (fun _ => (Except.error "x" : Except String (List Row))) none "a" "b"
  exact ⟨rfl, h.1 rfl, (h.2 rfl).1⟩

/-- Claim C10: a file named `central.db` anywhere under the root — such as
the consolidated store left behind by a previous run — is matched by
discovery, because its name ends with the `.db` suffix; and since the entry
point runs discovery before the initializer wipes `central.db`, that path
is itself ingested as a source file: whatever rows are read from it land in
the new merge target tagged with that path. -/
theorem claim_C10 (root : String) (tree : DirTree) (p : String)
    (prior : Option (List CRow)) (read : String → Except String (List Row))
    (centralFail : Option String) (inputA inputB : String) (rows : List Row)
    (hp : (p, "central.db") ∈ walkFiles root tree) :
    p ∈ search_sqlite_files root tree ∧
    (read p = Except.ok rows → ∀ r ∈ rows,
      tagRow r p ∈ ((main prior root tree read centralFail inputA inputB).2.getD [])) := by
  have hmem : p ∈ search_sqlite_files root tree := by
    rw [search_eq_walk]
    refine List.mem_map.mpr ⟨(p, "central.db"), ?_, rfl⟩
    rw [List.mem_filter]
    refine ⟨hp, ?_⟩
    show endsWithDb "central.db" = true
    decide
  refine ⟨hmem, fun hread r hr => ?_⟩
  have hne : search_sqlite_files root tree ≠ [] := by
    intro h
    rw [h] at hmem
    exact (List.not_mem_nil p) hmem
  rw [main_snd_of_nonempty prior root tree read centralFail inputA inputB hne,
    Option.getD_some]
  exact mem_populate_of_ok hmem hread hr

theorem claim_C10_witness :
    "w/central.db" ∈ search_sqlite_files "w" (DirTree.node ["central.db"] SubdirList.nil) ∧
    tagRow ⟨"u1", "Alice", "g1", "G1", "", "", ""⟩ "w/central.db" ∈
      ((main none "w" (DirTree.node ["central.db"] SubdirList.nil)
        (fun _ => (Except.ok [⟨"u1", "Alice", "g1", "G1", "", "", ""⟩] :
          Except String (List Row)))
        none "a" "b").2.getD []) := by
  have h := claim_C10 "w" (DirTree.node ["central.db"] SubdirList.nil) "w/central.db" none
    (fun _ => (Except.ok [⟨"u1", "Alice", "g1", "G1", "", "", ""⟩] :
      Except String (List Row)))
    none "a" "b" [⟨"u1", "Alice", "g1", "G1", "", "", ""⟩] (by decide)
  exact ⟨h.1, h.2 rfl ⟨"u1", "Alice", "g1", "G1", "", "", ""⟩ (by decide)⟩

end Mappings
